import Mathlib

/-!
Verification of the attendance-reporting core of the uroddiscordbot repository
(src/discordurodbot2.0.py and src/uroddiscordbot2.0.1.py), as a shallow
embedding in Lean.

Modelling conventions:
* Python floats are modelled as exact rationals (`ℚ`); the numeric tokens the
  bot parses are short decimal literals, where float rounding plays no role in
  the claims under study.
* Python strings are modelled as `String`/`List Char`.  The regex character
  classes are modelled on their ASCII/Cyrillic content: `\d` as
  `Char.isDigit`, `\s` as `Char.isWhitespace`, and `\w` as ASCII alphanumeric,
  underscore, or a Cyrillic letter (U+0400..U+04FF), which covers the
  alphabets the two patterns can interact with.
* The module-level mutable `config` dictionary is passed explicitly as a
  `Config` value.
* Discord entities (members, messages, channels) are modelled by the fields
  the code reads: member id, role ids, bot flag; message author id and body.
-/

/-! ## Configuration (`load_config` / `save_config` / global `config`)

The recognized keys and their defaults are those of `default_config` in
`load_config` (identical in both source files). -/

structure Config where
  required_work_time_hours : ℚ
  report_check_period_hours : ℚ
  applicable_roles : List Nat
  auto_report_enabled : Bool
  auto_report_channel : Option Nat
  command_access_users : List Nat
  command_access_roles : List Nat
  whitelist : List Nat
deriving DecidableEq

/-- The `default_config` dictionary built at the top of `load_config`. -/
def default_config : Config :=
  { required_work_time_hours := 8
    report_check_period_hours := 24
    applicable_roles := []
    auto_report_enabled := false
    auto_report_channel := none
    command_access_users := []
    command_access_roles := []
    whitelist := [] }

/-- A parsed JSON object in `config.json`, restricted to the recognized keys:
each key is either absent (`none`) or present with a value of the expected
shape.  (Unknown extra keys are irrelevant to every claim studied here.) -/
structure PartialConfig where
  required_work_time_hours : Option ℚ
  report_check_period_hours : Option ℚ
  applicable_roles : Option (List Nat)
  auto_report_enabled : Option Bool
  auto_report_channel : Option (Option Nat)
  command_access_users : Option (List Nat)
  command_access_roles : Option (List Nat)
  whitelist : Option (List Nat)
deriving DecidableEq

/-- State of `config.json` as observed by `load_config`: the file is missing;
its content fails `json.load` (`json.JSONDecodeError`); it decodes to a valid
JSON value that is not an object (a list, number, boolean, null, or a string
not containing every key name as a substring), on which the key-backfill loop
of the source raises an uncaught `TypeError` (either at `key not in config`
for non-iterable values or at `config[key] = value`); or it decodes to an
object with some subset of the recognized keys. -/
inductive FileState where
  | missing : FileState
  | unparseable : FileState
  | parsedNonObject : FileState
  | parsed : PartialConfig → FileState
deriving DecidableEq

/-- The uncaught exception `load_config` can raise: only
`json.JSONDecodeError` is caught, so the `TypeError` raised by the backfill
loop on non-object JSON content propagates to the caller (the module-level
`config = load_config()`). -/
inductive PyExn where
  | typeError : PyExn
deriving DecidableEq

/-- `load_config`: on a missing file or a `JSONDecodeError` it returns
`default_config`; on a parsed object it fills in every recognized key that is
absent with its default (`for key, value in default_config.items(): if key
not in config: config[key] = value`); on parsed non-object content that same
loop raises an uncaught `TypeError`. -/
def load_config : FileState → Except PyExn Config
  | FileState.missing => Except.ok default_config
  | FileState.unparseable => Except.ok default_config
  | FileState.parsedNonObject => Except.error PyExn.typeError
  | FileState.parsed s =>
    Except.ok
      { required_work_time_hours :=
          s.required_work_time_hours.getD default_config.required_work_time_hours
        report_check_period_hours :=
          s.report_check_period_hours.getD default_config.report_check_period_hours
        applicable_roles := s.applicable_roles.getD default_config.applicable_roles
        auto_report_enabled := s.auto_report_enabled.getD default_config.auto_report_enabled
        auto_report_channel := s.auto_report_channel.getD default_config.auto_report_channel
        command_access_users := s.command_access_users.getD default_config.command_access_users
        command_access_roles := s.command_access_roles.getD default_config.command_access_roles
        whitelist := s.whitelist.getD default_config.whitelist }

/-- `load_config` together with its effect on the file: the source function
only reads `CONFIG_FILE` (there is no `save_config` call inside it), so the
file state is returned unchanged in every branch, including the raising
one. -/
def load_config_run (fs : FileState) : Except PyExn Config × FileState :=
  (load_config fs, fs)

/-- The stored form of a fully-populated config record (every recognized key
present), used to express what "persisting the defaults" would mean. -/
def toStored (c : Config) : PartialConfig :=
  { required_work_time_hours := some c.required_work_time_hours
    report_check_period_hours := some c.report_check_period_hours
    applicable_roles := some c.applicable_roles
    auto_report_enabled := some c.auto_report_enabled
    auto_report_channel := some c.auto_report_channel
    command_access_users := some c.command_access_users
    command_access_roles := some c.command_access_roles
    whitelist := some c.whitelist }

/-- `set_required_work_time`: `config["required_work_time_hours"] = hours;
save_config(config)`.  The command body performs no validation of `hours`. -/
def set_required_work_time (hours : ℚ) (c : Config) : Config :=
  { c with required_work_time_hours := hours }

/-! ## Members and eligibility (`is_applicable`) -/

structure Member where
  id : Nat
  roles : List Nat
  isBot : Bool
deriving DecidableEq

/-- `is_applicable(member)`: true if `applicable_roles` is empty, or the
member has at least one of the listed roles (identical logic in both files;
2.0 uses an explicit loop, 2.0.1 uses `any`). -/
def is_applicable (c : Config) (m : Member) : Bool :=
  if c.applicable_roles.isEmpty then true
  else m.roles.any (fun r => c.applicable_roles.contains r)

/-! ## Duration extraction

File 2.0 uses
`(?i)\b(?:работал|работала|отработал|отработала)\s+(\d+(?:[.,]\d+)?)\s*(?:час(?:ов|а)?)\b`
with `re.search`; file 2.0.1 uses the bare pattern `(\d+(?:[.,]\d+)?)`.
Both are embedded as deterministic scanners over `List Char`.  Greedy
quantifiers commit without backtracking below; this is faithful because after
each maximal munch no shorter munch can satisfy the follow-on pattern element
(digits are not whitespace, separators, or the letters of `час`). -/

/-- Lower-casing as used by `(?i)` on the characters these patterns can
compare: ASCII plus the Cyrillic uppercase range U+0410..U+042F and Ё. -/
def lowerRu (c : Char) : Char :=
  if 0x410 ≤ c.toNat ∧ c.toNat ≤ 0x42F then Char.ofNat (c.toNat + 0x20)
  else if c.toNat = 0x401 then Char.ofNat 0x451
  else c.toLower

/-- The `\w` class on the relevant alphabets: ASCII alphanumeric, underscore,
or a Cyrillic code point. -/
def isWordChar (c : Char) : Bool :=
  c.isAlphanum || c == '_' || (decide (0x400 ≤ c.toNat) && decide (c.toNat ≤ 0x4FF))

/-- Case-insensitive literal match: strip `pat` from the front of `l`
(comparing via `lowerRu`), returning the remainder on success. -/
def stripPrefixCI : List Char → List Char → Option (List Char)
  | [], l => some l
  | _ :: _, [] => none
  | p :: ps, c :: cs => if lowerRu c == lowerRu p then stripPrefixCI ps cs else none

/-- The optional fraction part `(?:[.,]\d+)?` after the integer digits `ds`:
returns (token so far, rest). -/
def grabFrac (ds : List Char) (r : List Char) : List Char × List Char :=
  match r with
  | [] => (ds, [])
  | sep :: rr =>
    if (sep == '.' || sep == ',') &&
       (match rr with | d :: _ => d.isDigit | [] => false) then
      (ds ++ sep :: rr.takeWhile Char.isDigit, rr.dropWhile Char.isDigit)
    else (ds, r)

/-- Word boundary `\b` placed after a word character: the next character is
absent or a non-word character. -/
def boundaryAfter : List Char → Bool
  | [] => true
  | c :: _ => !isWordChar c

def chChas : List Char := ['ч', 'а', 'с']
def chOv : List Char := ['о', 'в']
def chA : List Char := ['а']
def verbRabotal : List Char := ['р', 'а', 'б', 'о', 'т', 'а', 'л']
def verbRabotala : List Char := ['р', 'а', 'б', 'о', 'т', 'а', 'л', 'а']
def verbOtrabotal : List Char := ['о', 'т', 'р', 'а', 'б', 'о', 'т', 'а', 'л']
def verbOtrabotala : List Char := ['о', 'т', 'р', 'а', 'б', 'о', 'т', 'а', 'л', 'а']

/-- After a verb alternative has matched, match
`\s+(\d+(?:[.,]\d+)?)\s*(?:час(?:ов|а)?)\b` and return the captured group. -/
def matchAfterVerb (r : List Char) : Option (List Char) :=
  if (r.takeWhile Char.isWhitespace).isEmpty then none
  else
    let r1 := r.dropWhile Char.isWhitespace
    let ds := r1.takeWhile Char.isDigit
    if ds.isEmpty then none
    else
      let p := grabFrac ds (r1.dropWhile Char.isDigit)
      let r4 := p.2.dropWhile Char.isWhitespace
      match stripPrefixCI chChas r4 with
      | none => none
      | some r5 =>
        match stripPrefixCI chOv r5 with
        | some r6 => if boundaryAfter r6 then some p.1 else none
        | none =>
          match stripPrefixCI chA r5 with
          | some r6 => if boundaryAfter r6 then some p.1 else none
          | none => if boundaryAfter r5 then some p.1 else none

/-- Try one verb alternative at the current position. -/
def tryOne (v : List Char) (l : List Char) : Option (List Char) :=
  match stripPrefixCI v l with
  | some r => matchAfterVerb r
  | none => none

/-- The alternation `(?:работал|работала|отработал|отработала)` with its
continuation, in the order the pattern lists the alternatives. -/
def tryVerbs (l : List Char) : Option (List Char) :=
  match tryOne verbRabotal l with
  | some t => some t
  | none =>
    match tryOne verbRabotala l with
    | some t => some t
    | none =>
      match tryOne verbOtrabotal l with
      | some t => some t
      | none => tryOne verbOtrabotala l

/-- `re.search` over the verb-anchored pattern: try each start position from
the left.  `prevWord` records whether the previous character is a word
character; the leading `\b` (before a verb letter, itself a word character)
holds exactly when it is not. -/
def searchVerb : Bool → List Char → Option (List Char)
  | _, [] => none
  | prevWord, c :: rest =>
    if !prevWord then
      match tryVerbs (c :: rest) with
      | some t => some t
      | none => searchVerb (isWordChar c) rest
    else searchVerb (isWordChar c) rest

/-- Maximal `\d+(?:[.,]\d+)?` token starting at the head of `l` (the head is
known to be a digit). -/
def grabNumber (l : List Char) : List Char :=
  (grabFrac (l.takeWhile Char.isDigit) (l.dropWhile Char.isDigit)).1

/-- `re.search` over the bare pattern `(\d+(?:[.,]\d+)?)` of file 2.0.1: the
match starts at the first digit of the text. -/
def scanNumber : List Char → Option (List Char)
  | [] => none
  | c :: rest => if c.isDigit then some (grabNumber (c :: rest)) else scanNumber rest

/-- Value of a nonempty digit string. -/
def digitsVal (l : List Char) : Nat :=
  l.foldl (fun n c => 10 * n + (c.toNat - 48)) 0

/-- `float(hours_str)` on the token language `\d+(\.\d+)?` that the captured
group takes after comma normalization; any other shape raises and is modelled
as `none` (the `except` branch of the source). -/
def pyFloat? (l : List Char) : Option ℚ :=
  let ip := l.takeWhile Char.isDigit
  if ip.isEmpty then none
  else
    match l.dropWhile Char.isDigit with
    | [] => some ((digitsVal ip : ℚ))
    | c :: fp =>
      if c == '.' && !fp.isEmpty && fp.all Char.isDigit then
        some ((digitsVal ip : ℚ) + (digitsVal fp : ℚ) / (10 : ℚ) ^ fp.length)
      else none

/-- `hours_str.replace(",", ".")`: both arguments are single characters, so
the replacement is a character-wise map. -/
def normSep (c : Char) : Char := if c == ',' then '.' else c

def replaceComma (l : List Char) : List Char := l.map normSep

/-- Duration extraction of file 2.0 (verb-anchored pattern): matched group,
comma normalization, float conversion; hours on success. -/
def extract20 (s : String) : Option ℚ :=
  Option.bind (searchVerb false s.data) (fun t => pyFloat? (replaceComma t))

/-- Duration extraction of file 2.0.1 (bare first-number pattern). -/
def extract201 (s : String) : Option ℚ :=
  Option.bind (scanNumber s.data) (fun t => pyFloat? (replaceComma t))

/-! ## Aggregation (the message loop of `generate_report`) -/

structure Msg where
  author : Nat
  content : String
deriving DecidableEq

/-- One loop iteration over a message: on a successful extraction,
`work_times[msg.author.id] = work_times.get(msg.author.id, 0) + minutes`
with `minutes = hours_val * 60`; otherwise `work_times` is unchanged.  The
dictionary is modelled as a total function with default 0. -/
def step (ext : String → Option ℚ) (w : Nat → ℚ) (m : Msg) : Nat → ℚ :=
  match ext m.content with
  | some h => fun a => if a = m.author then w a + h * 60 else w a
  | none => w

/-- The full message fold building `work_times`. -/
def aggregate (ext : String → Option ℚ) (msgs : List Msg) : Nat → ℚ :=
  msgs.foldl (step ext) (fun _ => 0)

/-- Minutes a single message contributes to author `a`'s total. -/
def contribution (ext : String → Option ℚ) (m : Msg) (a : Nat) : ℚ :=
  match ext m.content with
  | some h => if a = m.author then h * 60 else 0
  | none => 0

/-- Whether the message gets the ✅ reaction (successful extraction and float
conversion) rather than ❌. -/
def msg_accepted (ext : String → Option ℚ) (m : Msg) : Bool :=
  (ext m.content).isSome

/-! ## Classification (the member loop of `generate_report`) -/

/-- The member loop: skip bots and non-applicable members; with
`total = work_times.get(member.id, 0)` and
`required_minutes = config["required_work_time_hours"] * 60`, append to
`worked_enough` if `total >= required_minutes`, to `worked_insufficient` if
`total > 0`, else to `not_worked`.  The three lists are returned in roster
order. -/
def classify (c : Config) (w : Nat → ℚ) : List Member → List Member × List Member × List Member
  | [] => ([], [], [])
  | m :: rest =>
    let p := classify c w rest
    if m.isBot || !is_applicable c m then p
    else if w m.id ≥ c.required_work_time_hours * 60 then (m :: p.1, p.2.1, p.2.2)
    else if w m.id > 0 then (p.1, m :: p.2.1, p.2.2)
    else (p.1, p.2.1, m :: p.2.2)

/-! ## Scheduler (`auto_report_task_func`, `enable_auto_report`, `on_ready`) -/

/-- Process-level scheduler state: the in-memory `config`, the persisted
config (`config.json`), and the `auto_report_task` handle (`none` when the
global is `None`, `some d` for a task whose `done()` is `d`). -/
structure ProcState where
  config : Config
  store : Config
  task : Option Bool
deriving DecidableEq

inductive SchedEvent where
  | persistConfig : SchedEvent
  | startLoop : SchedEvent
deriving DecidableEq

/-- The guard `auto_report_task is None or auto_report_task.done()`. -/
def task_can_start : Option Bool → Bool
  | none => true
  | some d => d

/-- `enable_auto_report(channel)`: sets `auto_report_enabled`/
`auto_report_channel`, calls `save_config`, then creates the task only if the
guard holds.  Returns the new state and the ordered list of effects. -/
def enable_auto_report (ch : Nat) (s : ProcState) : ProcState × List SchedEvent :=
  let cfg := { s.config with auto_report_enabled := true, auto_report_channel := some ch }
  if task_can_start s.task then
    ({ config := cfg, store := cfg, task := some false },
      [SchedEvent.persistConfig, SchedEvent.startLoop])
  else
    ({ config := cfg, store := cfg, task := s.task }, [SchedEvent.persistConfig])

/-- A process restart: the module re-runs `config = load_config()` (the
in-memory config becomes the persisted one) and the task global is `None`. -/
def restart (s : ProcState) : ProcState :=
  { config := s.store, store := s.store, task := none }

/-- The `on_ready` handler: if `config.get("auto_report_enabled", False)` and
the task guard holds, create the task. -/
def on_ready (s : ProcState) : ProcState :=
  if s.config.auto_report_enabled && task_can_start s.task then
    { s with task := some false }
  else s

/-- Result of one wake of the `auto_report_task_func` loop body (after the
sleep): whether `generate_report` ran, whether the report was sent, and the
config as the loop re-reads it for its `while` guard.  The loop body sends
nothing at all on the skip paths (`continue`). -/
structure CycleResult where
  generated : Bool
  published : Bool
  config : Config
deriving DecidableEq

/-- One wake of the scheduler: `channel_id = config.get("auto_report_channel")`;
if it is `None`, `continue`; resolve it with `bot.get_channel`; if that is
`None`, `continue`; otherwise generate and send the report.  `resolvable`
models which channel ids `bot.get_channel` resolves. -/
def auto_report_cycle (c : Config) (resolvable : Nat → Bool) : CycleResult :=
  match c.auto_report_channel with
  | none => { generated := false, published := false, config := c }
  | some id =>
    if resolvable id then { generated := true, published := true, config := c }
    else { generated := false, published := false, config := c }

/-! ## Aggregation lemmas -/

lemma step_apply (ext : String → Option ℚ) (w : Nat → ℚ) (m : Msg) (a : Nat) :
    step ext w m a = w a + contribution ext m a := by
  unfold step contribution
  cases h : ext m.content with
  | none => simp
  | some q => by_cases ha : a = m.author <;> simp [ha]

lemma foldl_step_apply (ext : String → Option ℚ) :
    ∀ (msgs : List Msg) (w : Nat → ℚ) (a : Nat),
      (msgs.foldl (step ext) w) a
        = w a + (msgs.map (fun m => contribution ext m a)).sum
  | [], w, a => by simp
  | m :: rest, w, a => by
    simp only [List.foldl_cons, List.map_cons, List.sum_cons]
    rw [foldl_step_apply ext rest (step ext w m) a, step_apply]
    ring

lemma aggregate_apply (ext : String → Option ℚ) (msgs : List Msg) (a : Nat) :
    aggregate ext msgs a = (msgs.map (fun m => contribution ext m a)).sum := by
  unfold aggregate
  rw [foldl_step_apply]
  simp

/-- Claim C3: the aggregation fold is additive per author (an accepted
message appends `hours * 60` to its author's running total and leaves other
authors untouched, a rejected one changes nothing), the per-author totals are
invariant under any permutation of the message sequence, and the fold is a
pure function of its input, so re-running it on the same input yields the
same totals. -/
theorem aggregate_order_invariant_additive (ext : String → Option ℚ)
    (msgs msgs' : List Msg) (m : Msg) (a : Nat) (q : ℚ) :
    (msgs.Perm msgs' → aggregate ext msgs a = aggregate ext msgs' a)
    ∧ (ext m.content = some q →
        aggregate ext (msgs ++ [m]) m.author = aggregate ext msgs m.author + q * 60
        ∧ (a ≠ m.author → aggregate ext (msgs ++ [m]) a = aggregate ext msgs a))
    ∧ (ext m.content = none → aggregate ext (msgs ++ [m]) a = aggregate ext msgs a)
    ∧ aggregate ext msgs a = aggregate ext msgs a := by
  refine ⟨?_, ?_, ?_, rfl⟩
  · intro hp
    rw [aggregate_apply, aggregate_apply]
    exact (hp.map _).sum_eq
  · intro h
    constructor
    · rw [aggregate_apply, aggregate_apply]
      simp [contribution, h]
    · intro hne
      rw [aggregate_apply, aggregate_apply]
      simp [contribution, h, hne]
  · intro h
    rw [aggregate_apply, aggregate_apply]
    simp [contribution, h]

def msgSeven : Msg := { author := 1, content := String.mk ['7'] }
def msgThree : Msg := { author := 2, content := String.mk ['3'] }

/-- Witness for C3 at concrete inputs. -/
theorem aggregate_order_invariant_additive_witness :
    aggregate extract201 [msgSeven, msgThree] 1 = aggregate extract201 [msgThree, msgSeven] 1
    ∧ aggregate extract201 ([msgThree] ++ [msgSeven]) 1
        = aggregate extract201 [msgThree] 1 + 7 * 60 := by
  constructor
  · exact (aggregate_order_invariant_additive extract201 [msgSeven, msgThree]
      [msgThree, msgSeven] msgSeven 1 7).1 (List.Perm.swap msgThree msgSeven [])
  · exact ((aggregate_order_invariant_additive extract201 [msgThree]
      [msgThree] msgSeven 1 7).2.1 (by decide)).1

/-! ## Classification lemmas: the three buckets as roster filters -/

def bMet (c : Config) (w : Nat → ℚ) (m : Member) : Bool :=
  !m.isBot && is_applicable c m
    && decide (w m.id ≥ c.required_work_time_hours * 60)

def bBelow (c : Config) (w : Nat → ℚ) (m : Member) : Bool :=
  !m.isBot && is_applicable c m
    && !decide (w m.id ≥ c.required_work_time_hours * 60) && decide (w m.id > 0)

def bNone (c : Config) (w : Nat → ℚ) (m : Member) : Bool :=
  !m.isBot && is_applicable c m
    && !decide (w m.id ≥ c.required_work_time_hours * 60) && !decide (w m.id > 0)

lemma classify_eq_filters (c : Config) (w : Nat → ℚ) :
    ∀ r : List Member,
      classify c w r = (r.filter (bMet c w), r.filter (bBelow c w), r.filter (bNone c w))
  | [] => rfl
  | m :: rest => by
    have ih := classify_eq_filters c w rest
    simp only [classify, ih]
    by_cases h1 : m.isBot = true
    · simp [List.filter_cons, bMet, bBelow, bNone, h1]
    · by_cases h2 : is_applicable c m = true
      · by_cases h3 : w m.id ≥ c.required_work_time_hours * 60
        · simp [List.filter_cons, bMet, bBelow, bNone, h1, h2, h3]
        · by_cases h4 : w m.id > 0
          · simp [List.filter_cons, bMet, bBelow, bNone, h1, h2, h3, h4]
          · simp [List.filter_cons, bMet, bBelow, bNone, h1, h2, h3, h4]
      · simp [List.filter_cons, bMet, bBelow, bNone, h1, h2]

lemma count_filter_eq (p : Member → Bool) (l : List Member) (m : Member) :
    (l.filter p).count m = if p m then l.count m else 0 := by
  induction l with
  | nil => simp
  | cons x xs ih =>
    by_cases hx : p x = true
    · by_cases hm : m = x
      · subst hm
        simp [List.filter_cons, hx, List.count_cons, ih]
      · simp [List.filter_cons, hx, List.count_cons, ih, hm]
    · by_cases hm : m = x
      · subst hm
        simp [List.filter_cons, hx, List.count_cons, ih]
      · simp [List.filter_cons, hx, List.count_cons, ih, hm]

/-- Claim C1: for every roster, per-author-minutes mapping and configuration,
the member loop of `generate_report` puts each non-bot, applicable member in
exactly one of the three buckets and excludes bots and non-applicable members
from all three: counted with multiplicity, the three buckets partition the
applicable non-bot roster, and no member can occur in two different
buckets. -/
theorem classify_partition (c : Config) (w : Nat → ℚ) (roster : List Member) (m : Member) :
    ((classify c w roster).1.count m + (classify c w roster).2.1.count m
        + (classify c w roster).2.2.count m
      = if m.isBot = false ∧ is_applicable c m = true then roster.count m else 0)
    ∧ ((classify c w roster).1.count m = 0 ∨ (classify c w roster).2.1.count m = 0)
    ∧ ((classify c w roster).1.count m = 0 ∨ (classify c w roster).2.2.count m = 0)
    ∧ ((classify c w roster).2.1.count m = 0 ∨ (classify c w roster).2.2.count m = 0) := by
  rw [classify_eq_filters]
  simp only [count_filter_eq]
  by_cases h1 : m.isBot = true
  · simp [bMet, bBelow, bNone, h1]
  · rw [Bool.not_eq_true] at h1
    by_cases h2 : is_applicable c m = true
    · by_cases h3 : w m.id ≥ c.required_work_time_hours * 60
      · simp [bMet, bBelow, bNone, h1, h2, h3]
      · by_cases h4 : w m.id > 0
        · simp [bMet, bBelow, bNone, h1, h2, h3, h4]
        · simp [bMet, bBelow, bNone, h1, h2, h3, h4]
    · simp [bMet, bBelow, bNone, h1, h2]

/-- Claim C2: for a non-bot, applicable roster member the threshold
comparison of `generate_report` is inclusive: a total of exactly
`required_work_time_hours * 60` minutes lands in the "met" bucket, as does
any total at or above the threshold; below it, a positive total lands in
"below" and a non-positive one in "none". -/
theorem classify_threshold_inclusive (c : Config) (w : Nat → ℚ) (roster : List Member)
    (m : Member) (hm : m ∈ roster) (hb : m.isBot = false) (he : is_applicable c m = true) :
    (w m.id = c.required_work_time_hours * 60 → m ∈ (classify c w roster).1)
    ∧ (w m.id ≥ c.required_work_time_hours * 60 → m ∈ (classify c w roster).1)
    ∧ (¬ w m.id ≥ c.required_work_time_hours * 60 → 0 < w m.id →
        m ∈ (classify c w roster).2.1)
    ∧ (¬ w m.id ≥ c.required_work_time_hours * 60 → ¬ 0 < w m.id →
        m ∈ (classify c w roster).2.2) := by
  rw [classify_eq_filters]
  refine ⟨?_, ?_, ?_, ?_⟩
  · intro h
    exact List.mem_filter.mpr ⟨hm, by simp [bMet, hb, he, h]⟩
  · intro h
    exact List.mem_filter.mpr ⟨hm, by simp [bMet, hb, he, h]⟩
  · intro h h'
    exact List.mem_filter.mpr ⟨hm, by simp [bBelow, hb, he, h, h']⟩
  · intro h h'
    exact List.mem_filter.mpr ⟨hm, by simp [bNone, hb, he, h, h']⟩

def memberOne : Member := { id := 1, roles := [], isBot := false }

/-- Witness for C2: with the default 8-hour requirement, a member whose total
is exactly 480 minutes is classified "met". -/
theorem classify_threshold_inclusive_witness :
    memberOne ∈ (classify default_config (fun _ => 480) [memberOne]).1 :=
  (classify_threshold_inclusive default_config (fun _ => 480) [memberOne] memberOne
    (List.mem_singleton.mpr rfl) rfl rfl).1 (by norm_num [default_config])

/-- Claim C6: `is_applicable` holds exactly when the configured role list is
empty or the member holds at least one listed role; with an empty list every
member is applicable regardless of roles.  (It is a total Lean function, so
it has no error case.) -/
theorem is_applicable_iff (c : Config) (m : Member) :
    (is_applicable c m = true ↔
      c.applicable_roles = [] ∨ ∃ r, r ∈ m.roles ∧ r ∈ c.applicable_roles)
    ∧ (c.applicable_roles = [] → ∀ m' : Member, is_applicable c m' = true) := by
  constructor
  · unfold is_applicable
    by_cases h : c.applicable_roles.isEmpty = true
    · simp [h, List.isEmpty_iff.mp h]
    · rw [if_neg (by simp [h])]
      simp only [List.any_eq_true, List.contains, List.elem_iff]
      constructor
      · rintro ⟨r, hr, hr'⟩
        exact Or.inr ⟨r, hr, hr'⟩
      · rintro (hnil | ⟨r, hr, hr'⟩)
        · exact absurd hnil (by simpa [List.isEmpty_iff] using h)
        · exact ⟨r, hr, hr'⟩
  · intro h m'
    unfold is_applicable
    simp [h]

/-- Witness for C6: with an empty role list, a roleless member is applicable. -/
theorem is_applicable_iff_witness :
    is_applicable default_config memberOne = true :=
  (is_applicable_iff default_config memberOne).2 rfl memberOne

/-! ## Non-negativity of parsed durations and totals -/

lemma pyFloat?_nonneg {l : List Char} {q : ℚ} (h : pyFloat? l = some q) : 0 ≤ q := by
  simp only [pyFloat?] at h
  split at h
  · exact absurd h (by simp)
  · split at h
    · simp only [Option.some.injEq] at h
      rw [← h]
      positivity
    · split at h
      · simp only [Option.some.injEq] at h
        rw [← h]
        positivity
      · exact absurd h (by simp)

lemma extract20_nonneg {s : String} {q : ℚ} (h : extract20 s = some q) : 0 ≤ q := by
  unfold extract20 at h
  cases hs : searchVerb false s.data with
  | none => rw [hs] at h; exact absurd h (by simp)
  | some t => rw [hs] at h; exact pyFloat?_nonneg (by simpa using h)

lemma extract201_nonneg {s : String} {q : ℚ} (h : extract201 s = some q) : 0 ≤ q := by
  unfold extract201 at h
  cases hs : scanNumber s.data with
  | none => rw [hs] at h; exact absurd h (by simp)
  | some t => rw [hs] at h; exact pyFloat?_nonneg (by simpa using h)

lemma aggregate_nonneg (ext : String → Option ℚ)
    (hext : ∀ s q, ext s = some q → 0 ≤ q) (msgs : List Msg) (a : Nat) :
    0 ≤ aggregate ext msgs a := by
  rw [aggregate_apply]
  apply List.sum_nonneg
  intro x hx
  simp only [List.mem_map] at hx
  obtain ⟨m, _, rfl⟩ := hx
  unfold contribution
  cases hc : ext m.content with
  | none => simp
  | some v =>
    have hv := hext _ _ hc
    by_cases ha : a = m.author
    · simpa [ha] using mul_nonneg hv (by norm_num : (0:ℚ) ≤ 60)
    · simp [ha]

/-- Claim C10: `set_required_work_time` stores any value, including zero and
negative ones, with no validation; and when the stored requirement is ≤ 0,
every aggregated total (which is always ≥ 0) satisfies the `>=` comparison,
so classification puts every applicable non-bot member in the "met" bucket
and leaves "below" and "none" empty. -/
theorem set_required_no_validation_low_threshold (hours : ℚ) (c : Config)
    (msgs : List Msg) (roster : List Member) :
    (set_required_work_time hours c).required_work_time_hours = hours
    ∧ (∀ a, 0 ≤ aggregate extract20 msgs a)
    ∧ (∀ a, 0 ≤ aggregate extract201 msgs a)
    ∧ (∀ w : Nat → ℚ, (∀ a, 0 ≤ w a) → c.required_work_time_hours ≤ 0 →
        (classify c w roster).1 = roster.filter (fun m => !m.isBot && is_applicable c m)
        ∧ (classify c w roster).2.1 = [] ∧ (classify c w roster).2.2 = []) := by
  refine ⟨rfl, fun a => aggregate_nonneg _ (fun _ _ h => extract20_nonneg h) msgs a,
    fun a => aggregate_nonneg _ (fun _ _ h => extract201_nonneg h) msgs a, ?_⟩
  intro w hw hreq
  have hkey : ∀ m : Member, decide (w m.id ≥ c.required_work_time_hours * 60) = true := by
    intro m
    have h60 : c.required_work_time_hours * 60 ≤ 0 := by nlinarith
    simp only [decide_eq_true_eq, ge_iff_le]
    linarith [hw m.id]
  rw [classify_eq_filters]
  refine ⟨?_, ?_, ?_⟩
  · exact List.filter_congr (fun m _ => by simp [bMet, hkey m])
  · rw [List.filter_eq_nil_iff]
    intro m _
    simp [bBelow, hkey m]
  · rw [List.filter_eq_nil_iff]
    intro m _
    simp [bNone, hkey m]

def cfgZeroRequired : Config := { default_config with required_work_time_hours := 0 }

/-- Witness for C10: with a zero requirement, a member with a zero total is
in "met" and the other buckets are empty. -/
theorem set_required_no_validation_low_threshold_witness :
    (classify cfgZeroRequired (fun _ => 0) [memberOne]).1
        = [memberOne].filter (fun m => !m.isBot && is_applicable cfgZeroRequired m)
    ∧ (classify cfgZeroRequired (fun _ => 0) [memberOne]).2.1 = []
    ∧ (classify cfgZeroRequired (fun _ => 0) [memberOne]).2.2 = [] :=
  (set_required_no_validation_low_threshold 0 cfgZeroRequired [] [memberOne]).2.2.2
    (fun _ => 0) (fun _ => le_refl 0) (le_refl 0)

/-! ## Configuration load (claim C7) -/

/-- Counterexample to C7 as stated, at two concrete store states:
`load_config` on a missing file returns the defaults but does not persist
them — the file remains missing, and in particular the default record is
never written; and load is not failure-free: on valid JSON content that is
not an object (such as `[]`) the backfill loop raises an uncaught
`TypeError` instead of returning a configuration. -/
theorem load_config_not_persisted_and_can_fail :
    (load_config_run FileState.missing).2 = FileState.missing
    ∧ (load_config_run FileState.missing).2 ≠ FileState.parsed (toStored default_config)
    ∧ load_config FileState.parsedNonObject = Except.error PyExn.typeError
    ∧ ∀ c : Config, load_config FileState.parsedNonObject ≠ Except.ok c :=
  ⟨rfl, by simp [load_config_run], rfl, fun c => by simp [load_config]⟩

/-- Claim C7 as amended: configuration load persists nothing (`load_config`
only reads).  A missing store or one whose content fails JSON decoding yields
exactly the documented default record; a store parsed to an object is merged
over the defaults so that every recognized key has a value (the stored one
when present, the default otherwise); but a store parsed to a non-object
JSON value makes the key-backfill loop raise an uncaught `TypeError`, so
load is not failure-free. -/
theorem load_config_merge_or_type_error (s : PartialConfig) :
    load_config FileState.missing = Except.ok default_config
    ∧ load_config FileState.unparseable = Except.ok default_config
    ∧ (load_config_run FileState.missing).2 = FileState.missing
    ∧ (load_config_run FileState.unparseable).2 = FileState.unparseable
    ∧ load_config FileState.parsedNonObject = Except.error PyExn.typeError
    ∧ load_config (FileState.parsed s)
        = Except.ok
          { required_work_time_hours := s.required_work_time_hours.getD 8
            report_check_period_hours := s.report_check_period_hours.getD 24
            applicable_roles := s.applicable_roles.getD []
            auto_report_enabled := s.auto_report_enabled.getD false
            auto_report_channel := s.auto_report_channel.getD none
            command_access_users := s.command_access_users.getD []
            command_access_roles := s.command_access_roles.getD []
            whitelist := s.whitelist.getD [] } :=
  ⟨rfl, rfl, rfl, rfl, rfl, rfl⟩

/-! ## Scheduler (claims C8 and C9) -/

/-- Claim C8: `enable_auto_report` persists the enabled flag and destination
before the start-loop effect (the persist event heads the effect list and the
persisted record carries the new values); after a restart with the store
enabled, `on_ready` re-creates the task; and enabling while a live (not done)
task exists changes no task handle and emits no start-loop effect. -/
theorem enable_auto_report_persist_restart_single (s : ProcState) (ch : Nat) :
    (∃ tr, (enable_auto_report ch s).2 = SchedEvent.persistConfig :: tr)
    ∧ (enable_auto_report ch s).1.store.auto_report_enabled = true
    ∧ (enable_auto_report ch s).1.store.auto_report_channel = some ch
    ∧ (s.store.auto_report_enabled = true → (on_ready (restart s)).task = some false)
    ∧ (s.task = some false →
        (enable_auto_report ch s).1.task = some false
        ∧ (enable_auto_report ch s).2 = [SchedEvent.persistConfig]) := by
  refine ⟨?_, ?_, ?_, ?_, ?_⟩
  · unfold enable_auto_report
    by_cases h : task_can_start s.task = true
    · exact ⟨[SchedEvent.startLoop], by simp [h]⟩
    · exact ⟨[], by simp [h]⟩
  · unfold enable_auto_report
    by_cases h : task_can_start s.task = true <;> simp [h]
  · unfold enable_auto_report
    by_cases h : task_can_start s.task = true <;> simp [h]
  · intro h
    unfold on_ready restart task_can_start
    simp [h]
  · intro h
    unfold enable_auto_report
    simp [h, task_can_start]

def procStoredEnabled : ProcState :=
  { config := default_config
    store := { default_config with auto_report_enabled := true }
    task := none }

def procLiveTask : ProcState :=
  { config := default_config, store := default_config, task := some false }

/-- Witness for C8 at two concrete states: a restart with the store enabled
re-creates the task, and enabling over a live task emits only the persist
effect. -/
theorem enable_auto_report_persist_restart_single_witness :
    (on_ready (restart procStoredEnabled)).task = some false
    ∧ (enable_auto_report 5 procLiveTask).2 = [SchedEvent.persistConfig] :=
  ⟨(enable_auto_report_persist_restart_single procStoredEnabled 5).2.2.2.1 rfl,
    ((enable_auto_report_persist_restart_single procLiveTask 5).2.2.2.2 rfl).2⟩

/-- Claim C9: a scheduler wake whose destination is unset or unresolvable
generates no report, publishes nothing, and leaves the configuration (hence
the Enabled state read by the loop guard) unchanged. -/
theorem auto_report_cycle_skip_keeps_enabled (c : Config) (resolvable : Nat → Bool)
    (hen : c.auto_report_enabled = true)
    (hskip : c.auto_report_channel = none
      ∨ ∃ id, c.auto_report_channel = some id ∧ resolvable id = false) :
    (auto_report_cycle c resolvable).generated = false
    ∧ (auto_report_cycle c resolvable).published = false
    ∧ (auto_report_cycle c resolvable).config = c
    ∧ (auto_report_cycle c resolvable).config.auto_report_enabled = true := by
  rcases hskip with h | ⟨id, hid, hres⟩
  · unfold auto_report_cycle
    rw [h]
    exact ⟨rfl, rfl, rfl, hen⟩
  · unfold auto_report_cycle
    rw [hid]
    simp [hres, hen]

def cfgEnabledNoChannel : Config := { default_config with auto_report_enabled := true }

/-- Witness for C9: enabled config with no stored destination skips the
cycle. -/
theorem auto_report_cycle_skip_keeps_enabled_witness :
    (auto_report_cycle cfgEnabledNoChannel (fun _ => true)).published = false
    ∧ (auto_report_cycle cfgEnabledNoChannel (fun _ => true)).config.auto_report_enabled
        = true :=
  ⟨(auto_report_cycle_skip_keeps_enabled cfgEnabledNoChannel (fun _ => true) rfl
      (Or.inl rfl)).2.1,
    (auto_report_cycle_skip_keeps_enabled cfgEnabledNoChannel (fun _ => true) rfl
      (Or.inl rfl)).2.2.2⟩

/-! ## No digit, no claim (claim C4) -/

lemma stripPrefixCI_subset :
    ∀ (p l r : List Char), stripPrefixCI p l = some r → ∀ c ∈ r, c ∈ l
  | [], l, r, h => by
    simp only [stripPrefixCI, Option.some.injEq] at h
    exact h ▸ fun c hc => hc
  | _ :: _, [], r, h => by exact absurd h (by simp [stripPrefixCI])
  | p :: ps, c :: cs, r, h => by
    simp only [stripPrefixCI] at h
    split at h
    · exact fun x hx => List.mem_cons_of_mem c (stripPrefixCI_subset ps cs r h x hx)
    · exact absurd h (by simp)

lemma takeWhile_eq_nil_of_all_false {p : Char → Bool} :
    ∀ {l : List Char}, (∀ c ∈ l, p c = false) → l.takeWhile p = []
  | [], _ => rfl
  | c :: cs, h => by simp [List.takeWhile_cons, h c (List.mem_cons_self c cs)]

lemma matchAfterVerb_none {r : List Char} (h : ∀ c ∈ r, c.isDigit = false) :
    matchAfterVerb r = none := by
  have hr1 : (r.dropWhile Char.isWhitespace).takeWhile Char.isDigit = [] :=
    takeWhile_eq_nil_of_all_false
      (fun c hc => h c ((List.dropWhile_sublist Char.isWhitespace).subset hc))
  simp only [matchAfterVerb, hr1]
  split <;> simp

lemma tryOne_none {v l : List Char} (h : ∀ c ∈ l, c.isDigit = false) :
    tryOne v l = none := by
  unfold tryOne
  cases hsp : stripPrefixCI v l with
  | none => rfl
  | some r =>
    exact matchAfterVerb_none (fun c hc => h c (stripPrefixCI_subset v l r hsp c hc))

lemma tryVerbs_none {l : List Char} (h : ∀ c ∈ l, c.isDigit = false) :
    tryVerbs l = none := by
  unfold tryVerbs
  rw [tryOne_none h, tryOne_none h, tryOne_none h, tryOne_none h]

lemma searchVerb_none :
    ∀ {l : List Char}, (∀ c ∈ l, c.isDigit = false) → ∀ prev, searchVerb prev l = none
  | [], _, prev => rfl
  | c :: rest, h, prev => by
    have hrest : ∀ x ∈ rest, x.isDigit = false :=
      fun x hx => h x (List.mem_cons_of_mem c hx)
    simp only [searchVerb]
    split
    · rw [tryVerbs_none h]
      exact searchVerb_none hrest _
    · exact searchVerb_none hrest _

lemma scanNumber_none :
    ∀ {l : List Char}, (∀ c ∈ l, c.isDigit = false) → scanNumber l = none
  | [], _ => rfl
  | c :: rest, h => by
    simp only [scanNumber, h c (List.mem_cons_self c rest), Bool.false_eq_true, if_false]
    exact scanNumber_none (fun x hx => h x (List.mem_cons_of_mem c hx))

/-- Claim C4: a message text with no digit produces no claim under either
extraction rule (the verb-anchored one of 2.0 and the bare-number one of
2.0.1): the message is marked Rejected (`❌`, modelled by
`msg_accepted = false`; the `except` branch of a failed float conversion is
the same `none` outcome) and contributes zero minutes to every author's
total wherever it occurs in the message sequence. -/
theorem extract_no_digit_no_claim (s : String) (hs : ∀ c ∈ s.data, c.isDigit = false) :
    extract20 s = none ∧ extract201 s = none
    ∧ (∀ author : Nat,
        msg_accepted extract20 { author := author, content := s } = false
        ∧ msg_accepted extract201 { author := author, content := s } = false)
    ∧ (∀ (l₁ l₂ : List Msg) (author a : Nat),
        aggregate extract20 (l₁ ++ { author := author, content := s } :: l₂) a
          = aggregate extract20 (l₁ ++ l₂) a
        ∧ aggregate extract201 (l₁ ++ { author := author, content := s } :: l₂) a
          = aggregate extract201 (l₁ ++ l₂) a) := by
  have h20 : extract20 s = none := by
    unfold extract20
    rw [searchVerb_none hs false]
    rfl
  have h201 : extract201 s = none := by
    unfold extract201
    rw [scanNumber_none hs]
    rfl
  refine ⟨h20, h201, ?_, ?_⟩
  · intro author
    constructor <;> simp [msg_accepted, h20, h201]
  · intro l₁ l₂ author a
    constructor <;>
      · rw [aggregate_apply, aggregate_apply]
        simp [contribution, h20, h201]

/-- Witness for C4 on a concrete digit-free text. -/
theorem extract_no_digit_no_claim_witness :
    extract20 (String.mk ['a', 'b', 'c']) = none
    ∧ extract201 (String.mk ['a', 'b', 'c']) = none :=
  ⟨(extract_no_digit_no_claim (String.mk ['a', 'b', 'c']) (by decide)).1,
    (extract_no_digit_no_claim (String.mk ['a', 'b', 'c']) (by decide)).2.1⟩

/-! ## Comma/period equivalence (claim C5)

Every decision the two scanners make treats `,` and `.` identically, and the
final `replace(",", ".")` collapses the captured separator, so extraction is
invariant under `normSep` applied to the whole text.  The claim follows by
normalizing both texts. -/

lemma normSep_isDigit (c : Char) : (normSep c).isDigit = c.isDigit := by
  by_cases h : c = ','
  · subst h; decide
  · simp [normSep, h]

lemma normSep_isWhitespace (c : Char) : (normSep c).isWhitespace = c.isWhitespace := by
  by_cases h : c = ','
  · subst h; decide
  · simp [normSep, h]

lemma normSep_isWordChar (c : Char) : isWordChar (normSep c) = isWordChar c := by
  by_cases h : c = ','
  · subst h; decide
  · simp [normSep, h]

lemma normSep_sepClass (c : Char) :
    ((normSep c == '.') || (normSep c == ',')) = ((c == '.') || (c == ',')) := by
  by_cases h : c = ','
  · subst h; decide
  · simp [normSep, h]

lemma normSep_idem (c : Char) : normSep (normSep c) = normSep c := by
  by_cases h : c = ','
  · subst h; decide
  · simp [normSep, h]

lemma normSep_lowerRu_beq (c p : Char) (h1 : lowerRu p ≠ ',') (h2 : lowerRu p ≠ '.') :
    (lowerRu (normSep c) == lowerRu p) = (lowerRu c == lowerRu p) := by
  by_cases h : c = ','
  · subst h
    have hn : normSep ',' = '.' := by decide
    have hdot : lowerRu '.' = '.' := by decide
    have hcomma : lowerRu ',' = ',' := by decide
    rw [hn, hdot, hcomma, beq_eq_false_iff_ne.mpr (Ne.symm h2),
      beq_eq_false_iff_ne.mpr (Ne.symm h1)]
  · simp [normSep, h]

lemma takeWhile_map_normSep {p : Char → Bool} (hp : ∀ c, p (normSep c) = p c)
    (l : List Char) :
    (l.map normSep).takeWhile p = (l.takeWhile p).map normSep := by
  have hcomp : p ∘ normSep = p := funext hp
  rw [List.takeWhile_map, hcomp]

lemma dropWhile_map_normSep {p : Char → Bool} (hp : ∀ c, p (normSep c) = p c)
    (l : List Char) :
    (l.map normSep).dropWhile p = (l.dropWhile p).map normSep := by
  have hcomp : p ∘ normSep = p := funext hp
  rw [List.dropWhile_map, hcomp]

lemma isEmpty_map_normSep (l : List Char) : (l.map normSep).isEmpty = l.isEmpty := by
  cases l <;> rfl

lemma stripPrefixCI_map :
    ∀ (p l : List Char), (∀ a ∈ p, lowerRu a ≠ ',' ∧ lowerRu a ≠ '.') →
      stripPrefixCI p (l.map normSep) = Option.map (List.map normSep) (stripPrefixCI p l)
  | [], l, _ => rfl
  | _ :: _, [], _ => rfl
  | a :: ps, c :: cs, hp => by
    simp only [List.map_cons, stripPrefixCI]
    rw [normSep_lowerRu_beq c a (hp a (List.mem_cons_self a ps)).1
      (hp a (List.mem_cons_self a ps)).2]
    split
    · exact stripPrefixCI_map ps cs (fun x hx => hp x (List.mem_cons_of_mem a hx))
    · rfl

lemma grabFrac_map (ds r : List Char) :
    grabFrac (ds.map normSep) (r.map normSep)
      = ((grabFrac ds r).1.map normSep, (grabFrac ds r).2.map normSep) := by
  cases r with
  | nil => simp [grabFrac]
  | cons sep rr =>
    simp only [List.map_cons, grabFrac]
    have hhead : (match rr.map normSep with | d :: _ => d.isDigit | [] => false)
        = (match rr with | d :: _ => d.isDigit | [] => false) := by
      cases rr <;> simp [normSep_isDigit]
    rw [normSep_sepClass, hhead]
    split
    · simp [takeWhile_map_normSep normSep_isDigit,
        dropWhile_map_normSep normSep_isDigit]
    · rfl

lemma boundaryAfter_map (l : List Char) :
    boundaryAfter (l.map normSep) = boundaryAfter l := by
  cases l with
  | nil => rfl
  | cons c cs => simp [boundaryAfter, normSep_isWordChar]

lemma chChas_no_sep : ∀ a ∈ chChas, lowerRu a ≠ ',' ∧ lowerRu a ≠ '.' := by decide
lemma chOv_no_sep : ∀ a ∈ chOv, lowerRu a ≠ ',' ∧ lowerRu a ≠ '.' := by decide
lemma chA_no_sep : ∀ a ∈ chA, lowerRu a ≠ ',' ∧ lowerRu a ≠ '.' := by decide
lemma verbRabotal_no_sep : ∀ a ∈ verbRabotal, lowerRu a ≠ ',' ∧ lowerRu a ≠ '.' := by decide
lemma verbRabotala_no_sep : ∀ a ∈ verbRabotala, lowerRu a ≠ ',' ∧ lowerRu a ≠ '.' := by
  decide
lemma verbOtrabotal_no_sep : ∀ a ∈ verbOtrabotal, lowerRu a ≠ ',' ∧ lowerRu a ≠ '.' := by
  decide
lemma verbOtrabotala_no_sep : ∀ a ∈ verbOtrabotala, lowerRu a ≠ ',' ∧ lowerRu a ≠ '.' := by
  decide

lemma matchAfterVerb_map (r : List Char) :
    matchAfterVerb (r.map normSep) = Option.map (List.map normSep) (matchAfterVerb r) := by
  simp only [matchAfterVerb]
  rw [takeWhile_map_normSep normSep_isWhitespace, isEmpty_map_normSep,
    apply_ite (Option.map (List.map normSep))]
  by_cases hA : (r.takeWhile Char.isWhitespace).isEmpty = true
  · rw [if_pos hA, if_pos hA]
    rfl
  · rw [if_neg hA, if_neg hA]
    rw [dropWhile_map_normSep normSep_isWhitespace,
      takeWhile_map_normSep normSep_isDigit, isEmpty_map_normSep,
      apply_ite (Option.map (List.map normSep))]
    by_cases hB : ((r.dropWhile Char.isWhitespace).takeWhile Char.isDigit).isEmpty = true
    · rw [if_pos hB, if_pos hB]
      rfl
    · rw [if_neg hB, if_neg hB]
      rw [dropWhile_map_normSep normSep_isDigit, grabFrac_map]
      rw [dropWhile_map_normSep normSep_isWhitespace,
        stripPrefixCI_map chChas _ chChas_no_sep]
      cases hS : stripPrefixCI chChas
          (((grabFrac ((r.dropWhile Char.isWhitespace).takeWhile Char.isDigit)
            ((r.dropWhile Char.isWhitespace).dropWhile Char.isDigit)).2).dropWhile
              Char.isWhitespace) with
      | none => rfl
      | some r5 =>
        simp only [Option.map_some']
        rw [stripPrefixCI_map chOv _ chOv_no_sep]
        cases hS2 : stripPrefixCI chOv r5 with
        | some r6 =>
          simp only [Option.map_some', boundaryAfter_map,
            apply_ite (Option.map (List.map normSep)), Option.map_none']
        | none =>
          simp only [Option.map_none']
          rw [stripPrefixCI_map chA _ chA_no_sep]
          cases hS3 : stripPrefixCI chA r5 with
          | some r6 =>
            simp only [Option.map_some', boundaryAfter_map,
              apply_ite (Option.map (List.map normSep)), Option.map_none']
          | none =>
            simp only [Option.map_none', boundaryAfter_map,
              apply_ite (Option.map (List.map normSep)), Option.map_some']

lemma tryOne_map (v l : List Char) (hv : ∀ a ∈ v, lowerRu a ≠ ',' ∧ lowerRu a ≠ '.') :
    tryOne v (l.map normSep) = Option.map (List.map normSep) (tryOne v l) := by
  unfold tryOne
  rw [stripPrefixCI_map v l hv]
  cases hS : stripPrefixCI v l with
  | none => rfl
  | some r => simpa using matchAfterVerb_map r

lemma tryVerbs_map (l : List Char) :
    tryVerbs (l.map normSep) = Option.map (List.map normSep) (tryVerbs l) := by
  unfold tryVerbs
  rw [tryOne_map verbRabotal l verbRabotal_no_sep]
  cases tryOne verbRabotal l with
  | some t => rfl
  | none =>
    rw [Option.map_none']
    rw [tryOne_map verbRabotala l verbRabotala_no_sep]
    cases tryOne verbRabotala l with
    | some t => rfl
    | none =>
      rw [Option.map_none']
      rw [tryOne_map verbOtrabotal l verbOtrabotal_no_sep]
      cases tryOne verbOtrabotal l with
      | some t => rfl
      | none =>
        rw [Option.map_none']
        exact tryOne_map verbOtrabotala l verbOtrabotala_no_sep

lemma searchVerb_map :
    ∀ (l : List Char) (prev : Bool),
      searchVerb prev (l.map normSep) = Option.map (List.map normSep) (searchVerb prev l)
  | [], _ => rfl
  | c :: rest, prev => by
    simp only [List.map_cons, searchVerb, normSep_isWordChar]
    by_cases hp : prev = true
    · subst hp
      simp only [Bool.not_true, Bool.false_eq_true, if_false]
      exact searchVerb_map rest (isWordChar c)
    · rw [Bool.not_eq_true] at hp
      subst hp
      simp only [Bool.not_false, if_true]
      rw [show (normSep c :: rest.map normSep) = (c :: rest).map normSep from rfl,
        tryVerbs_map (c :: rest)]
      cases tryVerbs (c :: rest) with
      | some t => rfl
      | none =>
        simp only [Option.map_none']
        exact searchVerb_map rest (isWordChar c)

lemma grabNumber_map (l : List Char) :
    grabNumber (l.map normSep) = (grabNumber l).map normSep := by
  unfold grabNumber
  rw [takeWhile_map_normSep normSep_isDigit, dropWhile_map_normSep normSep_isDigit,
    grabFrac_map]

lemma scanNumber_map :
    ∀ l : List Char,
      scanNumber (l.map normSep) = Option.map (List.map normSep) (scanNumber l)
  | [] => rfl
  | c :: rest => by
    simp only [List.map_cons, scanNumber, normSep_isDigit]
    by_cases hd : c.isDigit = true
    · rw [if_pos hd, if_pos hd]
      rw [show (normSep c :: rest.map normSep) = (c :: rest).map normSep from rfl,
        grabNumber_map (c :: rest)]
      rfl
    · rw [if_neg hd, if_neg hd]
      exact scanNumber_map rest

lemma replaceComma_map_normSep (l : List Char) :
    replaceComma (l.map normSep) = replaceComma l := by
  unfold replaceComma
  rw [List.map_map]
  congr 1
  funext c
  exact normSep_idem c

lemma extract20_normSep (l : List Char) :
    extract20 (String.mk (l.map normSep)) = extract20 (String.mk l) := by
  unfold extract20
  show Option.bind (searchVerb false (l.map normSep)) _ = Option.bind (searchVerb false l) _
  rw [searchVerb_map l false]
  cases searchVerb false l with
  | none => rfl
  | some t =>
    show pyFloat? (replaceComma (t.map normSep)) = pyFloat? (replaceComma t)
    rw [replaceComma_map_normSep]

lemma extract201_normSep (l : List Char) :
    extract201 (String.mk (l.map normSep)) = extract201 (String.mk l) := by
  unfold extract201
  show Option.bind (scanNumber (l.map normSep)) _ = Option.bind (scanNumber l) _
  rw [scanNumber_map l]
  cases scanNumber l with
  | none => rfl
  | some t =>
    show pyFloat? (replaceComma (t.map normSep)) = pyFloat? (replaceComma t)
    rw [replaceComma_map_normSep]

/-- Claim C5: two message texts that are identical except that one writes the
decimal separator of the claimed duration as a comma where the other has a
period yield the same extracted value, under both extraction rules: the comma
is normalized to a period before numeric conversion, and every matching
decision treats the two separators alike. -/
theorem extract_comma_period_equiv (u v : List Char) :
    extract20 (String.mk (u ++ ',' :: v)) = extract20 (String.mk (u ++ '.' :: v))
    ∧ extract201 (String.mk (u ++ ',' :: v)) = extract201 (String.mk (u ++ '.' :: v)) := by
  have key : ∀ f : String → Option ℚ,
      (∀ l : List Char, f (String.mk (l.map normSep)) = f (String.mk l)) →
      f (String.mk (u ++ ',' :: v)) = f (String.mk (u ++ '.' :: v)) := by
    intro f hf
    rw [← hf (u ++ ',' :: v), ← hf (u ++ '.' :: v)]
    simp only [List.map_append, List.map_cons]
    rw [show normSep ',' = '.' from by decide, show normSep '.' = '.' from by decide]
  exact ⟨key extract20 extract20_normSep, key extract201 extract201_normSep⟩
